import Mathlib

/-!
Verification of the remote_file kitten (src/kittens/remote_file/main.py)
against its natural-language specification.

The Python source is shallowly embedded: pure helpers become Lean
functions, external effects (subprocess spawns, filesystem tests,
interactive reads) become explicit oracle inputs, and each flow is a
function from those inputs to a trace of observable events.
-/

namespace RemoteFileKitten

/-! ## Path helpers (models of `os.path` functions used by the kitten) -/

/-- Index of the last occurrence of `c` in `cs` (model of Python `str.rfind`,
with `none` in place of `-1`). -/
def pyRfindIdx (c : Char) : List Char → Option Nat
  | [] => none
  | x :: xs =>
    match pyRfindIdx c xs with
    | some i => some (i + 1)
    | none => if x = c then some 0 else none

/-- Start index of the basename: one past the last slash (0 when there is none). -/
def basenameStart (cs : List Char) : Nat :=
  match pyRfindIdx '/' cs with
  | some i => i + 1
  | none => 0

/-- Model of `os.path.basename` for POSIX paths: everything after the last slash. -/
def pyBasename (p : String) : String :=
  ⟨p.toList.drop (basenameStart p.toList)⟩

/-- Drop trailing slashes (model of `str.rstrip` restricted to the slash). -/
def rstripSlash (cs : List Char) : List Char :=
  (cs.reverse.dropWhile (fun x => x = '/')).reverse

/-- Model of `posixpath.dirname`: the prefix up to the last slash, with
trailing slashes stripped unless the head is all slashes. -/
def pyDirname (p : String) : String :=
  let cs := p.toList
  let head := cs.take (basenameStart cs)
  if head ≠ [] ∧ ¬ (head.all (fun x => x = '/')) then ⟨rstripSlash head⟩ else ⟨head⟩

/-- Model of `posixpath.join` for two components. -/
def pyJoin (a b : String) : String :=
  if b.toList.head? = some '/' then b
  else if a = "" ∨ a.toList.getLast? = some '/' then a ++ b
  else a ++ "/" ++ b

/-- Model of `os.path.splitext`: split at the last dot of the basename,
unless every character of the basename before that dot is itself a dot. -/
def pySplitext (p : String) : String × String :=
  let cs := p.toList
  let start := basenameStart cs
  match pyRfindIdx '.' cs with
  | some d =>
    if start ≤ d ∧ ((cs.drop start).take (d - start)).any (fun x => x ≠ '.') then
      (⟨cs.take d⟩, ⟨cs.drop d⟩)
    else (p, "")
  | none => (p, "")

/-! ## Connection descriptor and command builders -/

/-- Modelled from the spec: the connection descriptor (`SSHConnectionData`,
defined in the ssh kitten, which is outside these sources) holds the remote
binary, the hostname, and an optional numeric port. -/
structure SSHConnectionData where
  binary : String
  hostname : String
  port : Option Int
deriving DecidableEq

/-- Model of `simple_copy_command`: the one-shot remote read command.
The port clause mirrors Python truthiness of `conn_data.port`
(`None` and `0` are both falsy). -/
def simple_copy_command (conn : SSHConnectionData) (path : String) : List String :=
  [conn.binary]
  ++ (match conn.port with
      | some p => if p != 0 then ["-p", toString p] else []
      | none => [])
  ++ [conn.hostname, "cat", path]

/-- Model of `ControlMaster.__init__`: the interactive-capable command
prefix stored in `self.cmd_prefix`. -/
def cmdPrefix (conn : SSHConnectionData) (pid : Nat) : List String :=
  [conn.binary,
   "-o", "ControlPath=~/.ssh/kitty-master-" ++ toString pid ++ "-%r@%h:%p",
   "-o", "TCPKeepAlive=yes",
   "-o", "ControlPersist=yes"]
  ++ (match conn.port with
      | some p => if p != 0 then ["-p", toString p] else []
      | none => [])

/-- Model of `self.batch_cmd_prefix`: the interactive prefix plus BatchMode. -/
def batchCmdPrefix (conn : SSHConnectionData) (pid : Nat) : List String :=
  cmdPrefix conn pid ++ ["-o", "BatchMode=yes"]

/-- Model of the command vector built by `ControlMaster.upload`: note the
source selects `self.cmd_prefix` when `suppress_output` is true and
`self.batch_cmd_prefix` when it is false. -/
def upload_cmd (conn : SSHConnectionData) (pid : Nat) (remotePath : String)
    (suppressOutput : Bool) : List String :=
  (if suppressOutput then cmdPrefix conn pid else batchCmdPrefix conn pid)
  ++ [conn.hostname, "cat", ">", remotePath]

/-- Observable actions of one `ControlMaster.upload` call: the optional echo
of the command line, then the run with its staged-file stdin and whether the
output is shown (`outputShown = false` models redirection to DEVNULL). -/
inductive UploadEv where
  | echoCmd (cmd : List String)
  | run (cmd : List String) (outputShown : Bool) (stdinFile : String)
deriving DecidableEq

/-- Model of the effects of `ControlMaster.upload`: echo the exact command
line when output is not suppressed, then run it with the staged local file
as stdin, discarding all output exactly when `suppressOutput` is true. -/
def upload_events (conn : SSHConnectionData) (pid : Nat) (remotePath stagedPath : String)
    (suppressOutput : Bool) : List UploadEv :=
  (if suppressOutput then [] else [UploadEv.echoCmd (upload_cmd conn pid remotePath suppressOutput)])
  ++ [UploadEv.run (upload_cmd conn pid remotePath suppressOutput) (!suppressOutput) stagedPath]

/-! ## Connection-descriptor payload parsing (dispatcher entry) -/

/-- Scalar JSON values that can occur in the serialized connection descriptor. -/
inductive JScalar where
  | null
  | jstr (s : String)
  | jnum (n : Int)
deriving DecidableEq

/-- Double-quote character, written via its code point. -/
def quoteCh : Char := Char.ofNat 34

/-- JSON whitespace. -/
def isJsonWs (c : Char) : Bool :=
  c = ' ' || c = Char.ofNat 9 || c = Char.ofNat 10 || c = Char.ofNat 13

/-- Skip JSON whitespace. -/
def skipWs (cs : List Char) : List Char :=
  cs.dropWhile isJsonWs

/-- Read a string literal body up to the closing quote (the payloads the ssh
kitten serializes contain no escape sequences, so none are modelled). -/
def readStringLit : List Char → Option (String × List Char)
  | [] => none
  | c :: rest =>
    if c = quoteCh then some ("", rest)
    else
      match readStringLit rest with
      | some (s, r) => some (Char.toString c ++ s, r)
      | none => none

/-- Split a leading run of decimal digits from the rest. -/
def readDigits : List Char → List Char × List Char
  | [] => ([], [])
  | c :: rest =>
    if c.isDigit then
      match readDigits rest with
      | (ds, r) => (c :: ds, r)
    else ([], c :: rest)

/-- Numeric value of a digit run. -/
def natOfDigits (ds : List Char) : Nat :=
  ds.foldl (fun n c => n * 10 + (c.toNat - 48)) 0

/-- Read one JSON scalar. -/
def readScalar : List Char → Option (JScalar × List Char)
  | [] => none
  | c :: rest =>
    if c = quoteCh then
      match readStringLit rest with
      | some (s, r) => some (JScalar.jstr s, r)
      | none => none
    else if c.isDigit then
      match readDigits (c :: rest) with
      | (ds, r) => some (JScalar.jnum (natOfDigits ds : Int), r)
    else if c = '-' then
      match readDigits rest with
      | ([], _) => none
      | (ds, r) => some (JScalar.jnum (-(natOfDigits ds : Int)), r)
    else
      match c :: rest with
      | 'n' :: 'u' :: 'l' :: 'l' :: r2 => some (JScalar.null, r2)
      | _ => none

/-- Read the comma-separated items of a JSON array up to the closing bracket. -/
def readItems : Nat → List Char → Option (List JScalar × List Char)
  | 0, _ => none
  | fuel + 1, cs =>
    match readScalar (skipWs cs) with
    | none => none
    | some (v, rest) =>
      match skipWs rest with
      | ',' :: r2 =>
        (match readItems fuel r2 with
         | some (vs, r3) => some (v :: vs, r3)
         | none => none)
      | ']' :: r2 => some ([v], r2)
      | _ => none

/-- Modelled from the spec: Python `json.loads` (standard library, outside
these sources) restricted to the flat arrays of scalars that carry the
connection descriptor. An empty or malformed payload raises, which the
model renders as `Except.error`. -/
def jsonLoads (s : String) : Except String (List JScalar) :=
  match skipWs s.toList with
  | '[' :: rest =>
    (match skipWs rest with
     | ']' :: r2 => if skipWs r2 = [] then Except.ok [] else Except.error "extra data"
     | _ =>
       match readItems (rest.length + 1) rest with
       | some (vs, r2) => if skipWs r2 = [] then Except.ok vs else Except.error "extra data"
       | none => Except.error "invalid json")
  | _ => Except.error "expecting value"

/-- Modelled from the spec: unpacking the parsed array into the descriptor
(`SSHConnectionData(*fields)` with binary, hostname and an optional port). -/
def sshConnFrom : List JScalar → Except String SSHConnectionData
  | [JScalar.jstr b, JScalar.jstr h] => Except.ok ⟨b, h, none⟩
  | [JScalar.jstr b, JScalar.jstr h, JScalar.jnum p] => Except.ok ⟨b, h, some p⟩
  | [JScalar.jstr b, JScalar.jstr h, JScalar.null] => Except.ok ⟨b, h, none⟩
  | _ => Except.error "invalid connection data"

/-- Model of `SSHConnectionData(*json.loads(cli_opts.ssh_connection_data or ''))`,
the first statement of `handle_action`. -/
def parseConn (s : String) : Except String SSHConnectionData :=
  match jsonLoads s with
  | Except.error e => Except.error e
  | Except.ok items => sshConnFrom items

/-! ## Observable events of the flows -/

/-- User-visible error messages issued through `show_error`. -/
inductive ErrMsg where
  | downloadFailed
  | uploadFailed
  | masterDied
  | copyFailed
  | unhandled
deriving DecidableEq

/-- Observable events of the flows: liveness probes, uploads (with the
`suppress_output` flag and their success), error screens, the last-used
marker rewrite, directory creation, the one-shot copy, the best-effort
control-connection teardown and the scratch-directory removal. -/
inductive Ev where
  | probe (alive : Bool)
  | upload (suppressOutput : Bool) (ok : Bool)
  | showError (m : ErrMsg)
  | markerWrite (dir : String)
  | mkdirs (dir : String)
  | runCopy (cmd : List String) (dest : String)
  | controlExit
  | rmtree
deriving DecidableEq

/-! ## Edit-session loop (lines 287-299 of the source) -/

/-- Oracle data for one poll-loop iteration: whether the staged file's
modification time advanced, what `is_alive` would report if probed, and
whether the suppressed upload would succeed if attempted. -/
structure EditStep where
  mtimeAdvanced : Bool
  alive : Bool
  uploadOk : Bool
deriving DecidableEq

/-- Oracle data for the final-upload step after the editor exits. -/
structure EditFinal where
  alive : Bool
  uploadOk : Bool
deriving DecidableEq

/-- Events of one poll-loop iteration: when the mtime advanced the session
probes liveness and, only if the probe reported alive, performs a
suppressed upload. -/
def editLoopStep (s : EditStep) : List Ev :=
  if s.mtimeAdvanced then
    Ev.probe s.alive :: (if s.alive then [Ev.upload true s.uploadOk] else [])
  else []

/-- Events of the whole poll loop. -/
def editLoopEvents : List EditStep → List Ev
  | [] => []
  | s :: rest => editLoopStep s ++ editLoopEvents rest

/-- Events of the final-upload step: probe liveness; if alive perform a
non-suppressed upload and report its failure, otherwise report that the
master process died. -/
def finalUploadEvents (fin : EditFinal) : List Ev :=
  Ev.probe fin.alive ::
    (if fin.alive then
      Ev.upload false fin.uploadOk ::
        (if fin.uploadOk then [] else [Ev.showError ErrMsg.uploadFailed])
    else [Ev.showError ErrMsg.masterDied])

/-- Events of the edit flow body: a failed download reports and returns
before any editor is launched; otherwise the poll loop runs followed by
the final-upload step. -/
def editFlow (downloadOk : Bool) (steps : List EditStep) (fin : EditFinal) : List Ev :=
  if downloadOk then editLoopEvents steps ++ finalUploadEvents fin
  else [Ev.showError ErrMsg.downloadFailed]

/-- Checks that every upload event is immediately preceded by a liveness
probe that reported alive; `armed` records whether the previous event was
such a probe. -/
def gatedFrom (armed : Bool) : List Ev → Bool
  | [] => true
  | Ev.probe a :: rest => gatedFrom a rest
  | Ev.upload _ _ :: rest => armed && gatedFrom false rest
  | _ :: rest => gatedFrom false rest

/-- Upload events. -/
def isUploadEv : Ev → Bool
  | Ev.upload _ _ => true
  | _ => false

/-- Checks whether some upload event occurs anywhere after a probe that
reported dead (the behaviour the spec's latching invariant forbids). -/
def uploadAfterDeadReport : List Ev → Bool
  | [] => false
  | Ev.probe false :: rest => rest.any isUploadEv || uploadAfterDeadReport rest
  | _ :: rest => uploadAfterDeadReport rest

/-! ## Auto-rename (lines 252-259 of the source) -/

/-- The candidate name for counter `c`: the extension-split of the original
destination with `-c` inserted before the extension. -/
def candidateName (dest : String) (c : Nat) : String :=
  (pySplitext dest).1 ++ "-" ++ toString c ++ (pySplitext dest).2

/-- Body of the auto-rename `while` loop: `q` is the current candidate,
`c` the counter; the loop runs while `q` exists, and `fuel` bounds the
number of iterations (the source loop is unbounded). -/
def autoRenameGo (ex : String → Bool) (dest : String) : Nat → String → Nat → String
  | 0, q, _ => q
  | fuel + 1, q, c =>
    if ex q then autoRenameGo ex dest fuel (candidateName dest (c + 1)) (c + 1) else q

/-- Model of the auto-rename branch of `save_as`: starting from the
existing destination, try `-1`, `-2`, … until a name does not exist. -/
def autoRename (ex : String → Bool) (dest : String) (fuel : Nat) : String :=
  autoRenameGo ex dest fuel dest 0

/-! ## Save flow (`save_as`, lines 212-264 of the source) -/

/-- Oracle view of the environment `save_as` interacts with: filesystem
tests, shell expansion and absolute-path resolution (both environment
dependent), the system temp directory, whether the one-shot copy to a given
destination succeeds, and the iteration bound for auto-rename. -/
structure SaveEnv where
  pathExists : String → Bool
  isdir : String → Bool
  expand : String → String
  absOf : String → String
  tmpdir : String
  copyOk : String → Bool
  renameFuel : Nat

/-- One interaction round of `save_as`: the destination prompt's result
(`none` models KeyboardInterrupt/EOFError) and the conflict-menu key
returned by `get_key_press` when the destination exists. -/
structure SaveRound where
  promptRes : Option String
  conflictKey : String
deriving DecidableEq

/-- Model of destination resolution for a non-blank input: expand user and
environment shorthand, then append the remote basename if the result is an
existing directory. -/
def resolveDest (env : SaveEnv) (remotePath d0 : String) : String :=
  let d1 := env.expand d0
  if env.isdir d1 then pyJoin d1 (pyBasename remotePath) else d1

/-- Model of the tail of `save_as`: create the destination's parent
directory when it has one, run the one-shot copy, and report a failure. -/
def finishEvents (env : SaveEnv) (conn : SSHConnectionData) (remotePath dest : String) :
    List Ev :=
  (if pyDirname dest = "" then [] else [Ev.mkdirs (pyDirname dest)])
  ++ Ev.runCopy (simple_copy_command conn remotePath) dest
     :: (if env.copyOk dest then [] else [Ev.showError ErrMsg.copyFailed])

/-- Result of one `save_as` round: either the flow finishes, or (on the
new-name key) the whole flow restarts. -/
inductive SaveStepRes where
  | done (marker : Option String) (evs : List Ev)
  | again (marker : Option String) (evs : List Ev)
deriving DecidableEq

/-- Marker content after a round. -/
def stepMarker : SaveStepRes → Option String
  | SaveStepRes.done m _ => m
  | SaveStepRes.again m _ => m

/-- Events of a round. -/
def stepEvs : SaveStepRes → List Ev
  | SaveStepRes.done _ e => e
  | SaveStepRes.again _ e => e

/-- Model of `save_as` after the destination is resolved: when it exists,
the conflict menu offers abort, new name (restart), auto-rename, and every
other key (overwrite included) proceeds with the destination as is. -/
def saveAfterDest (env : SaveEnv) (conn : SSHConnectionData) (remotePath : String)
    (marker1 : Option String) (evs1 : List Ev) (dest : String) (key : String) :
    SaveStepRes :=
  if env.pathExists dest then
    if key = "a" then SaveStepRes.done marker1 evs1
    else if key = "n" then SaveStepRes.again marker1 evs1
    else if key = "r" then
      SaveStepRes.done marker1
        (evs1 ++ finishEvents env conn remotePath (autoRename env.pathExists dest env.renameFuel))
    else SaveStepRes.done marker1 (evs1 ++ finishEvents env conn remotePath dest)
  else SaveStepRes.done marker1 (evs1 ++ finishEvents env conn remotePath dest)

/-- Model of one round of `save_as`: a cancelled prompt returns; a blank
prompt accepts the default (remote basename in the last-used directory,
falling back to the temp directory) and leaves the marker alone; a
non-blank prompt resolves the destination and rewrites the marker with the
directory of its absolute form before anything else happens. -/
def saveRound (env : SaveEnv) (conn : SSHConnectionData) (remotePath : String)
    (marker : Option String) (r : SaveRound) : SaveStepRes :=
  match r.promptRes with
  | none => SaveStepRes.done marker []
  | some d0 =>
    if d0 = "" then
      saveAfterDest env conn remotePath marker []
        (pyJoin (marker.getD env.tmpdir) (pyBasename remotePath)) r.conflictKey
    else
      saveAfterDest env conn remotePath
        (some (pyDirname (env.absOf (resolveDest env remotePath d0))))
        [Ev.markerWrite (pyDirname (env.absOf (resolveDest env remotePath d0)))]
        (resolveDest env remotePath d0) r.conflictKey

/-- Model of `save_as`: rounds are consumed one per invocation, with the
new-name key re-running the flow on the remaining rounds (the marker file
is re-read by the recursive call, modelled by threading its content).
Returns the final marker content, the event trace, and the consumed rounds. -/
def save_as (env : SaveEnv) (conn : SSHConnectionData) (remotePath : String) :
    Option String → List SaveRound → Option String × List Ev × List SaveRound
  | marker, [] => (marker, [], [])
  | marker, r :: rest =>
    match saveRound env conn remotePath marker r with
    | SaveStepRes.done m evs => (m, evs, [r])
    | SaveStepRes.again m evs =>
      match save_as env conn remotePath m rest with
      | (m2, evs2, cons2) => (m2, evs ++ evs2, r :: cons2)

/-- Marker-file write events. -/
def isMarkerWrite : Ev → Bool
  | Ev.markerWrite _ => true
  | _ => false

/-- Whether a round supplied a non-blank destination. -/
def roundNonblank (r : SaveRound) : Bool :=
  match r.promptRes with
  | some d => d ≠ ""
  | none => false

/-! ## Control-master session scope and dispatcher -/

/-- Outcome of running a block of Python code: a returned value or an
escaping exception. -/
inductive Outcome (α : Type) where
  | ret (a : α)
  | exn
deriving DecidableEq

/-- Model of the `with ControlMaster(...)` statement. When `__enter__`
fails (a `check_call` exits non-zero) the exception propagates and no
scratch directory is created. Otherwise the body runs, and `__exit__`
always runs afterwards: it best-effort asks the control connection to
exit, removes the scratch directory, and returns `True` — so an exception
raised in the body is suppressed and the statement completes normally.
The result is the statement's outcome, the event trace, and whether the
scratch directory still exists at the end. -/
def withControlMaster (enterOk : Bool) (body : Outcome Unit × List Ev) :
    Outcome Unit × List Ev × Bool :=
  if enterOk then (Outcome.ret (), body.2 ++ [Ev.controlExit, Ev.rmtree], false)
  else (Outcome.exn, [], false)

/-- Oracle inputs of one `handle_action` invocation. `editBodyExn` injects
an exception raised inside the `with ControlMaster` scope after a
successful download (for example from `get_editor` or `os.path.getmtime`). -/
structure DispatchInputs where
  openTmpDir : String
  openCopyOk : Bool
  editEnterOk : Bool
  editDownloadOk : Bool
  editSteps : List EditStep
  editFinal : EditFinal
  editBodyExn : Bool
  saveEnv : SaveEnv
  saveMarker : Option String
  saveRounds : List SaveRound

/-- Body of the edit branch's `with` scope. -/
def editBody (inp : DispatchInputs) : Outcome Unit × List Ev :=
  if inp.editDownloadOk && inp.editBodyExn then (Outcome.exn, [])
  else (Outcome.ret (), editFlow inp.editDownloadOk inp.editSteps inp.editFinal)

/-- Model of the open branch: one-shot copy into a fresh temp file,
returning the path on success and reporting the failure otherwise. -/
def open_flow (inp : DispatchInputs) (conn : SSHConnectionData) (remotePath : String) :
    Outcome (Option String) × List Ev :=
  let cmd := simple_copy_command conn remotePath
  let dest := pyJoin inp.openTmpDir (pyBasename remotePath)
  if inp.openCopyOk then (Outcome.ret (some dest), [Ev.runCopy cmd dest])
  else (Outcome.ret none, [Ev.runCopy cmd dest, Ev.showError ErrMsg.copyFailed])

/-- Model of the edit branch: run the session body inside the control-master
scope; only an `__enter__` failure escapes as an exception. -/
def edit_flow_dispatch (inp : DispatchInputs) : Outcome (Option String) × List Ev :=
  match withControlMaster inp.editEnterOk (editBody inp) with
  | (Outcome.ret _, evs, _) => (Outcome.ret none, evs)
  | (Outcome.exn, evs, _) => (Outcome.exn, evs)

/-- Model of `handle_action`: the connection descriptor is parsed from the
payload before the action is examined, so a malformed payload raises for
every action, cancel included; then the action selects a flow, and any
unmatched action (cancel among them) falls through and returns `None`. -/
def handle_action (inp : DispatchInputs) (action : String) (payload : Option String)
    (remotePath : String) : Outcome (Option String) × List Ev :=
  match parseConn (payload.getD "") with
  | Except.error _ => (Outcome.exn, [])
  | Except.ok conn =>
    if action = "open" then open_flow inp conn remotePath
    else if action = "edit" then edit_flow_dispatch inp
    else if action = "save" then
      (Outcome.ret none, (save_as inp.saveEnv conn remotePath inp.saveMarker inp.saveRounds).2.1)
    else (Outcome.ret none, [])

/-- Model of `main`'s boundary around `handle_action`: an exception that
escapes the flow is caught, and a generic failure screen (requiring a
keypress) is shown; nothing propagates further. -/
def main_model (inp : DispatchInputs) (action : String) (payload : Option String)
    (remotePath : String) : Option String × List Ev :=
  match handle_action inp action payload remotePath with
  | (Outcome.ret r, evs) => (r, evs)
  | (Outcome.exn, evs) => (none, evs ++ [Ev.showError ErrMsg.unhandled])

/-! ## Single-keystroke reader (`get_key_press`, lines 34-49) -/

/-- One observation of the raw byte reader: a byte read from stdin, or a
KeyboardInterrupt/EOFError raised during the read. -/
inductive KeyEvent where
  | byte (b : Nat)
  | interrupt
deriving DecidableEq

/-- Loop of `get_key_press`: `response` starts as the default; escape and
Ctrl-C break; any other byte that decodes is lowercased and stored in
`response` before the membership test, so breaking later returns it even
when it is not in `allowed`; bytes that fail to decode are ignored;
an interrupt, or the end of input, returns the current response. -/
def getKeyGo (allowed : String) : String → List KeyEvent → String
  | response, [] => response
  | response, KeyEvent.interrupt :: _ => response
  | response, KeyEvent.byte b :: rest =>
    if b = 27 ∨ b = 3 then response
    else if b < 128 then
      (if allowed.toList.contains (Char.toLower (Char.ofNat b)) then
        Char.toString (Char.toLower (Char.ofNat b))
      else getKeyGo allowed (Char.toString (Char.toLower (Char.ofNat b))) rest)
    else getKeyGo allowed response rest

/-- Model of `get_key_press`. -/
def get_key_press (allowed dflt : String) (evs : List KeyEvent) : String :=
  getKeyGo allowed dflt evs

/-- The property the claim asserts of the reader's result: it is the
default, or each of its characters is a lowercase character of `allowed`. -/
def keyInAllowed (allowed r : String) : Bool :=
  r.toList.all (fun c => allowed.toList.contains c && (Char.toLower c = c))

/-! ## C5: one-shot copy command and the port clause -/

/-- C5 counterexample: a descriptor whose port is set to `0` is not given
a `-p` pair — `if conn_data.port:` is Python truthiness, so port `0`
behaves like an absent port, refuting the claim as stated for every
descriptor with a port set. -/
theorem c5_counterexample :
    simple_copy_command ⟨"ssh", "host", some 0⟩ "/f"
      ≠ ["ssh", "-p", "0", "host", "cat", "/f"] := by
  decide

/-- C5 (amended): with port `None` or `0` the copy command is
`[binary, hostname, cat, path]` with no `-p` token; with any nonzero port
it is `[binary, -p, str(port), hostname, cat, path]`. -/
theorem c5_copy_command_ports (conn : SSHConnectionData) (path : String) :
    (conn.port = none →
      simple_copy_command conn path = [conn.binary, conn.hostname, "cat", path])
  ∧ (conn.port = some 0 →
      simple_copy_command conn path = [conn.binary, conn.hostname, "cat", path])
  ∧ (∀ p : Int, conn.port = some p → p ≠ 0 →
      simple_copy_command conn path
        = [conn.binary, "-p", toString p, conn.hostname, "cat", path]) := by
  refine ⟨fun h => ?_, fun h => ?_, fun p h hp => ?_⟩
  · simp [simple_copy_command, h]
  · simp [simple_copy_command, h]
  · simp [simple_copy_command, h, hp]

/-- C5 witness: the amended theorem applied at a portless descriptor and at
one with port 22. -/
theorem c5_witness :
    simple_copy_command ⟨"ssh", "h", none⟩ "/f" = ["ssh", "h", "cat", "/f"]
  ∧ simple_copy_command ⟨"ssh", "h", some 22⟩ "/f"
      = ["ssh", "-p", "22", "h", "cat", "/f"] :=
  ⟨(c5_copy_command_ports ⟨"ssh", "h", none⟩ "/f").1 rfl,
   (c5_copy_command_ports ⟨"ssh", "h", some 22⟩ "/f").2.2 22 rfl (by decide)⟩

/-! ## C8: the upload command and its output handling -/

/-- C8 counterexample: the non-suppressed (final, user-visible) upload
command contains the BatchMode option — the source picks
`self.cmd_prefix` when `suppress_output` is true and `self.batch_cmd_prefix`
when it is false, refuting the claim that every remote-write command uses
the interactive-capable prefix with no BatchMode option. -/
theorem c8_counterexample :
    "BatchMode=yes" ∈ upload_cmd ⟨"ssh", "h", none⟩ 1 "/f" false := by
  decide

/-- C8 (amended): the suppressed upload uses the interactive-capable prefix
and the non-suppressed upload uses the batch prefix (the interactive prefix
plus the BatchMode option), each followed by the hostname and the remote
command `cat > remotePath` with the staged file as stdin; the exact command
line is echoed and output shown exactly when output is not suppressed. -/
theorem c8_upload_command_shape (conn : SSHConnectionData) (pid : Nat)
    (remotePath stagedPath : String) (suppressOutput : Bool) :
    upload_cmd conn pid remotePath suppressOutput
      = (if suppressOutput then cmdPrefix conn pid else batchCmdPrefix conn pid)
        ++ [conn.hostname, "cat", ">", remotePath]
  ∧ batchCmdPrefix conn pid = cmdPrefix conn pid ++ ["-o", "BatchMode=yes"]
  ∧ upload_events conn pid remotePath stagedPath true
      = [UploadEv.run (upload_cmd conn pid remotePath true) false stagedPath]
  ∧ upload_events conn pid remotePath stagedPath false
      = [UploadEv.echoCmd (upload_cmd conn pid remotePath false),
         UploadEv.run (upload_cmd conn pid remotePath false) true stagedPath] := by
  refine ⟨rfl, rfl, ?_, ?_⟩ <;> simp [upload_events]

/-! ## C10: the single-keystroke reader -/

/-- C10 counterexample: with allowed keys `anor` and default `a`, typing
`x` and then escape returns `"x"`, which is neither the default nor a
character of `allowed` — `response` is overwritten before the membership
test, so an escape after a non-allowed key leaks it. -/
theorem c10_counterexample :
    ¬ (get_key_press "anor" "a" [KeyEvent.byte 120, KeyEvent.byte 27] = "a"
       ∨ keyInAllowed "anor"
           (get_key_press "anor" "a" [KeyEvent.byte 120, KeyEvent.byte 27]) = true) := by
  decide

/-- Invariant of the reader loop: the result is the incoming response or
the lowercase decoding of one of the input bytes. -/
theorem getKeyGo_result (allowed : String) (evs : List KeyEvent) :
    ∀ resp : String,
      getKeyGo allowed resp evs = resp
    ∨ ∃ b, KeyEvent.byte b ∈ evs ∧ b < 128
        ∧ getKeyGo allowed resp evs = Char.toString (Char.toLower (Char.ofNat b)) := by
  induction evs with
  | nil => intro resp; left; rfl
  | cons e rest ih =>
    intro resp
    cases e with
    | interrupt => left; rfl
    | byte b =>
      by_cases h27 : b = 27 ∨ b = 3
      · left; simp [getKeyGo, h27]
      · by_cases h128 : b < 128
        · by_cases hc : Char.toLower (Char.ofNat b) ∈ allowed.data
          · right
            exact ⟨b, List.mem_cons_self _ _, h128, by simp [getKeyGo, h27, h128, hc]⟩
          · rcases ih (Char.toString (Char.toLower (Char.ofNat b))) with h | ⟨b2, hb2, hlt, he⟩
            · right
              exact ⟨b, List.mem_cons_self _ _, h128, by simp [getKeyGo, h27, h128, hc, h]⟩
            · right
              exact ⟨b2, List.mem_cons_of_mem _ hb2, hlt,
                by simp [getKeyGo, h27, h128, hc, he]⟩
        · rcases ih resp with h | ⟨b2, hb2, hlt, he⟩
          · left; simp [getKeyGo, h27, h128, h]
          · right
            exact ⟨b2, List.mem_cons_of_mem _ hb2, hlt, by simp [getKeyGo, h27, h128, he]⟩

/-- C10 (amended): for every input, `get_key_press` returns either the
given default or the lowercase folding of the decoding of one of the input
bytes; belonging to `allowed` is guaranteed only when the loop exits by
matching an allowed key, not when it exits via escape, Ctrl-C, interrupt or
end of input. -/
theorem c10_key_press_result (allowed dflt : String) (evs : List KeyEvent) :
    get_key_press allowed dflt evs = dflt
  ∨ ∃ b, KeyEvent.byte b ∈ evs ∧ b < 128
      ∧ get_key_press allowed dflt evs = Char.toString (Char.toLower (Char.ofNat b)) :=
  getKeyGo_result allowed evs dflt

/-! ## C6: auto-rename -/

/-- Once the loop's candidate does not exist, it is returned unchanged for
any remaining fuel. -/
theorem autoRenameGo_free (ex : String → Bool) (dest : String) (c0 : Nat)
    (hfree : ex (candidateName dest c0) = false) :
    ∀ fuel, autoRenameGo ex dest fuel (candidateName dest c0) c0 = candidateName dest c0 := by
  intro fuel
  cases fuel with
  | zero => rfl
  | succ f => simp [autoRenameGo, hfree]

/-- Loop invariant of auto-rename: starting from any existing candidate at
counter `c` below the least free counter `c0`, with enough fuel the loop
returns the candidate at `c0`. -/
theorem autoRenameGo_reaches (ex : String → Bool) (dest : String) (c0 : Nat)
    (hfree : ex (candidateName dest c0) = false)
    (hmin : ∀ c, 1 ≤ c → c < c0 → ex (candidateName dest c) = true) :
    ∀ fuel c q, c < c0 → c0 - c ≤ fuel → ex q = true →
      autoRenameGo ex dest fuel q c = candidateName dest c0 := by
  intro fuel
  induction fuel with
  | zero => intro c q hc hfuel _; omega
  | succ f ih =>
    intro c q hc hfuel hq
    rw [autoRenameGo, if_pos hq]
    by_cases hstep : c + 1 = c0
    · rw [hstep]; exact autoRenameGo_free ex dest c0 hfree f
    · exact ih (c + 1) (candidateName dest (c + 1)) (by omega) (by omega)
        (hmin (c + 1) (by omega) (by omega))

/-- C6: when the resolved destination exists and `c0` is the least counter
at or above 1 whose candidate name does not exist, auto-rename (given
enough fuel for the loop to reach it) returns exactly that candidate —
the name with `-c0` inserted before the extension — and the chosen name
does not exist at the moment it is chosen. -/
theorem c6_auto_rename (ex : String → Bool) (dest : String) (c0 fuel : Nat)
    (hdest : ex dest = true) (h1 : 1 ≤ c0) (hfuel : c0 ≤ fuel)
    (hfree : ex (candidateName dest c0) = false)
    (hmin : ∀ c, 1 ≤ c → c < c0 → ex (candidateName dest c) = true) :
    autoRename ex dest fuel = candidateName dest c0
  ∧ ex (autoRename ex dest fuel) = false := by
  have h := autoRenameGo_reaches ex dest c0 hfree hmin fuel 0 dest (by omega) (by omega) hdest
  exact ⟨h, by rw [autoRename, h]; exact hfree⟩

/-- C6 witness: for an existing `a.txt`, with `a-0.txt` also existing, the
first name tried and returned is `a-1.txt`, which does not exist. -/
theorem c6_witness :
    autoRename (fun s => s == "a.txt" || s == "a-0.txt") "a.txt" 1 = "a-1.txt"
  ∧ (fun s : String => s == "a.txt" || s == "a-0.txt") "a-1.txt" = false := by
  have h := c6_auto_rename (fun s => s == "a.txt" || s == "a-0.txt") "a.txt" 1 1
    (by decide) (le_refl 1) (le_refl 1) (by decide)
    (fun c hc1 hc2 => absurd (Nat.lt_of_lt_of_le hc2 hc1) (Nat.lt_irrefl c))
  exact ⟨by rw [h.1]; decide, by decide⟩

/-! ## C1, C2: upload gating in the edit session -/

/-- One poll-loop iteration leaves the probe-gating check invariant: its
events are either nothing, a dead probe, or a live probe followed
immediately by its suppressed upload. -/
theorem gatedFrom_editLoopStep (s : EditStep) (tl : List Ev) :
    gatedFrom false (editLoopStep s ++ tl) = gatedFrom false tl := by
  rcases s with ⟨adv, alive, ok⟩
  cases adv <;> cases alive <;> simp [editLoopStep, gatedFrom]

/-- The whole poll loop leaves the probe-gating check invariant. -/
theorem gatedFrom_editLoopEvents (steps : List EditStep) (tl : List Ev) :
    gatedFrom false (editLoopEvents steps ++ tl) = gatedFrom false tl := by
  induction steps with
  | nil => rfl
  | cons s rest ih =>
    rw [editLoopEvents, List.append_assoc, gatedFrom_editLoopStep, ih]

/-- The final-upload step satisfies the probe-gating check. -/
theorem gatedFrom_finalUploadEvents (fin : EditFinal) :
    gatedFrom false (finalUploadEvents fin) = true := by
  rcases fin with ⟨alive, ok⟩
  cases alive <;> cases ok <;> simp [finalUploadEvents, gatedFrom]

/-- C1 counterexample: a session in which the liveness probe reports dead at
one poll iteration and alive at the next performs an upload after the dead
report — the source re-evaluates `is_alive` at each modification, with no
latch — refuting the claim that once the connection has reported dead no
further upload attempts are made. -/
theorem c1_counterexample :
    uploadAfterDeadReport
      (editFlow true [⟨true, false, true⟩, ⟨true, true, true⟩] ⟨true, true⟩) = true := by
  decide

/-- C1 (amended): during an edit session every upload attempt is immediately
preceded by a liveness probe that reported alive — the check is
re-evaluated per attempt rather than latched — and when the final probe
reports dead, no further event follows except informing the user that the
upload failed because the master process died. -/
theorem c1_upload_gated_by_probe (downloadOk : Bool) (steps : List EditStep)
    (fin : EditFinal) :
    gatedFrom false (editFlow downloadOk steps fin) = true
  ∧ (fin.alive = false →
      editFlow true steps fin
        = editLoopEvents steps ++ [Ev.probe false, Ev.showError ErrMsg.masterDied]) := by
  constructor
  · cases downloadOk with
    | false => simp [editFlow, gatedFrom]
    | true =>
      rw [editFlow, if_pos rfl, gatedFrom_editLoopEvents]
      exact gatedFrom_finalUploadEvents fin
  · intro halive
    rcases fin with ⟨alive, ok⟩
    cases halive
    simp [editFlow, finalUploadEvents]

/-- C1 witness: the amended theorem at a session whose final probe reports
dead. -/
theorem c1_witness :
    gatedFrom false (editFlow true [] ⟨false, true⟩) = true
  ∧ editFlow true [] ⟨false, true⟩
      = editLoopEvents [] ++ [Ev.probe false, Ev.showError ErrMsg.masterDied] :=
  ⟨(c1_upload_gated_by_probe true [] ⟨false, true⟩).1,
   (c1_upload_gated_by_probe true [] ⟨false, true⟩).2 rfl⟩

/-- C2: at the final-upload step, a dead probe means no upload command is
issued and the user is told the master process died; a live probe means a
non-suppressed upload runs, with its failure reported to the user. -/
theorem c2_final_upload_branch (steps : List EditStep) (fin : EditFinal) :
    (fin.alive = false →
      editFlow true steps fin
        = editLoopEvents steps ++ [Ev.probe false, Ev.showError ErrMsg.masterDied])
  ∧ (fin.alive = true →
      editFlow true steps fin
        = editLoopEvents steps
          ++ Ev.probe true :: Ev.upload false fin.uploadOk
             :: (if fin.uploadOk then [] else [Ev.showError ErrMsg.uploadFailed])) := by
  rcases fin with ⟨alive, ok⟩
  constructor
  · intro h; cases h; simp [editFlow, finalUploadEvents]
  · intro h; cases h; simp [editFlow, finalUploadEvents]

/-- C2 witness: the live-probe branch with a failing final upload, and the
dead-probe branch. -/
theorem c2_witness :
    editFlow true [] ⟨true, false⟩
      = editLoopEvents []
        ++ Ev.probe true :: Ev.upload false false :: [Ev.showError ErrMsg.uploadFailed]
  ∧ editFlow true [] ⟨false, true⟩
      = editLoopEvents [] ++ [Ev.probe false, Ev.showError ErrMsg.masterDied] :=
  ⟨(c2_final_upload_branch [] ⟨true, false⟩).2 rfl,
   (c2_final_upload_branch [] ⟨false, true⟩).1 rfl⟩

/-! ## C3: unconditional scratch-directory removal -/

/-- C3: whatever the session body did — normal completion, an early return
after a failed download or upload, or an escaping exception — leaving the
`with ControlMaster` scope tears down the control connection, removes the
scratch directory, and completes the statement normally (the exit handler
returns `True`). -/
theorem c3_scratch_dir_removed (body : Outcome Unit × List Ev) :
    (withControlMaster true body).2.2 = false
  ∧ Ev.rmtree ∈ (withControlMaster true body).2.1
  ∧ (withControlMaster true body).2.1 = body.2 ++ [Ev.controlExit, Ev.rmtree]
  ∧ (withControlMaster true body).1 = Outcome.ret () := by
  refine ⟨rfl, ?_, rfl, rfl⟩
  simp [withControlMaster]

/-! ## C7: the last-used-directory marker file -/

/-- The copy tail of `save_as` writes no marker event. -/
theorem finishEvents_no_marker (env : SaveEnv) (conn : SSHConnectionData)
    (remotePath dest : String) :
    (finishEvents env conn remotePath dest).any isMarkerWrite = false := by
  unfold finishEvents
  split <;> split <;> simp [isMarkerWrite]

/-- The post-resolution part of a round never changes the marker content it
was handed. -/
theorem stepMarker_saveAfterDest (env : SaveEnv) (conn : SSHConnectionData)
    (remotePath : String) (m1 : Option String) (e1 : List Ev) (dest key : String) :
    stepMarker (saveAfterDest env conn remotePath m1 e1 dest key) = m1 := by
  unfold saveAfterDest
  repeat' split
  all_goals rfl

/-- The post-resolution part of a round adds no marker event beyond those it
was handed. -/
theorem stepEvs_any_marker (env : SaveEnv) (conn : SSHConnectionData)
    (remotePath : String) (m1 : Option String) (e1 : List Ev) (dest key : String) :
    (stepEvs (saveAfterDest env conn remotePath m1 e1 dest key)).any isMarkerWrite
      = e1.any isMarkerWrite := by
  unfold saveAfterDest
  repeat' split
  all_goals simp [stepEvs, List.any_append, finishEvents_no_marker]

/-- The post-resolution part of a round keeps the first handed event first. -/
theorem stepEvs_head (env : SaveEnv) (conn : SSHConnectionData)
    (remotePath : String) (m1 : Option String) (x : Ev) (e1 : List Ev) (dest key : String) :
    ∃ tail, stepEvs (saveAfterDest env conn remotePath m1 (x :: e1) dest key) = x :: tail := by
  unfold saveAfterDest
  repeat' split
  · exact ⟨e1, rfl⟩
  · exact ⟨e1, rfl⟩
  · exact ⟨e1 ++ finishEvents env conn remotePath (autoRename env.pathExists dest env.renameFuel),
      rfl⟩
  · exact ⟨e1 ++ finishEvents env conn remotePath dest, rfl⟩
  · exact ⟨e1 ++ finishEvents env conn remotePath dest, rfl⟩

/-- A round writes the marker exactly when its prompt was non-blank. -/
theorem saveRound_evs_marker (env : SaveEnv) (conn : SSHConnectionData)
    (remotePath : String) (marker : Option String) (r : SaveRound) :
    (stepEvs (saveRound env conn remotePath marker r)).any isMarkerWrite
      = roundNonblank r := by
  rcases r with ⟨pr, key⟩
  cases pr with
  | none => rfl
  | some d0 =>
    by_cases hd : d0 = ""
    · simp [saveRound, roundNonblank, hd, stepEvs_any_marker]
    · simp [saveRound, roundNonblank, hd, stepEvs_any_marker, isMarkerWrite]

/-- A blank (or cancelled) round leaves the marker content unchanged. -/
theorem saveRound_marker_unchanged (env : SaveEnv) (conn : SSHConnectionData)
    (remotePath : String) (marker : Option String) (r : SaveRound)
    (h : roundNonblank r = false) :
    stepMarker (saveRound env conn remotePath marker r) = marker := by
  rcases r with ⟨pr, key⟩
  cases pr with
  | none => rfl
  | some d0 =>
    have hd : d0 = "" := by
      by_contra hne
      simp [roundNonblank, hne] at h
    simp [saveRound, hd, stepMarker_saveAfterDest]

/-- A non-blank round's first event is the marker rewrite with the directory
of the absolute resolved destination. -/
theorem saveRound_marker_write_head (env : SaveEnv) (conn : SSHConnectionData)
    (remotePath : String) (marker : Option String) (r : SaveRound) (d : String)
    (h : r.promptRes = some d) (hd : d ≠ "") :
    ∃ tail, stepEvs (saveRound env conn remotePath marker r)
      = Ev.markerWrite (pyDirname (env.absOf (resolveDest env remotePath d))) :: tail := by
  rcases r with ⟨pr, key⟩
  cases h
  simp only [saveRound, if_neg hd]
  exact stepEvs_head env conn remotePath _ _ [] _ key

/-- C7: over a whole `save_as` invocation (new-name restarts included), a
marker-file rewrite appears in the trace exactly when one of the consumed
prompts supplied a non-blank destination; when every consumed prompt was
blank or cancelled the marker content is unchanged; and a non-blank first
prompt writes, before anything else, the directory of the absolute resolved
destination. -/
theorem c7_marker_rewritten_iff (env : SaveEnv) (conn : SSHConnectionData)
    (remotePath : String) (marker : Option String) (rounds : List SaveRound) :
    ((save_as env conn remotePath marker rounds).2.1.any isMarkerWrite
      = (save_as env conn remotePath marker rounds).2.2.any roundNonblank)
  ∧ ((save_as env conn remotePath marker rounds).2.2.any roundNonblank = false →
      (save_as env conn remotePath marker rounds).1 = marker)
  ∧ (∀ r rest d, rounds = r :: rest → r.promptRes = some d → d ≠ "" →
      ∃ tail, (save_as env conn remotePath marker rounds).2.1
        = Ev.markerWrite (pyDirname (env.absOf (resolveDest env remotePath d))) :: tail) := by
  induction rounds generalizing marker with
  | nil =>
    refine ⟨rfl, fun _ => rfl, fun r rest d h => ?_⟩
    exact absurd h (by simp)
  | cons r rest ih =>
    have hmark := saveRound_evs_marker env conn remotePath marker r
    cases hsr : saveRound env conn remotePath marker r with
    | done m evs =>
      rw [hsr] at hmark
      simp only [stepEvs] at hmark
      have hs : save_as env conn remotePath marker (r :: rest) = (m, evs, [r]) := by
        rw [save_as, hsr]
      refine ⟨?_, ?_, ?_⟩
      · simp [hs, hmark]
      · intro hnb
        simp only [hs] at hnb ⊢
        simp only [List.any_cons, List.any_nil, Bool.or_false] at hnb
        have := saveRound_marker_unchanged env conn remotePath marker r hnb
        rw [hsr] at this
        simpa [stepMarker] using this
      · intro r2 rest2 d heq hpr hd
        cases heq
        have hw := saveRound_marker_write_head env conn remotePath marker r d hpr hd
        rw [hsr] at hw
        simp only [stepEvs] at hw
        simpa [hs] using hw
    | again m evs =>
      rw [hsr] at hmark
      simp only [stepEvs] at hmark
      obtain ⟨ih1, ih2, _⟩ := ih m
      have hs : save_as env conn remotePath marker (r :: rest)
          = ((save_as env conn remotePath m rest).1,
             evs ++ (save_as env conn remotePath m rest).2.1,
             r :: (save_as env conn remotePath m rest).2.2) := by
        rw [save_as, hsr]
      refine ⟨?_, ?_, ?_⟩
      · simp [hs, List.any_append, hmark, ih1]
      · intro hnb
        simp only [hs] at hnb ⊢
        simp only [List.any_cons] at hnb
        have hparts := Bool.or_eq_false_iff.mp hnb
        have hm : m = marker := by
          have := saveRound_marker_unchanged env conn remotePath marker r hparts.1
          rw [hsr] at this
          simpa [stepMarker] using this
        rw [ih2 hparts.2, hm]
      · intro r2 rest2 d heq hpr hd
        cases heq
        have hw := saveRound_marker_write_head env conn remotePath marker r d hpr hd
        rw [hsr] at hw
        simp only [stepEvs] at hw
        obtain ⟨tail, htail⟩ := hw
        exact ⟨tail ++ (save_as env conn remotePath m rest).2.1, by simp [hs, htail]⟩

/-- Concrete environment used by witnesses: empty filesystem, identity
expansion and absolutization, copies succeed. -/
def envW : SaveEnv :=
  ⟨fun _ => false, fun _ => false, fun s => s, fun s => s, "/tmp", fun _ => true, 0⟩

/-- Concrete connection descriptor used by witnesses. -/
def connW : SSHConnectionData := ⟨"ssh", "h", none⟩

/-- Concrete dispatcher inputs used by witnesses: the edit session's body
raises after a successful download. -/
def inpW : DispatchInputs :=
  ⟨"/tmp/x", true, true, true, [], ⟨true, true⟩, true, envW, none, []⟩

/-- C7 witness: the main theorem applied to a single-round interaction —
a non-blank prompt writes the resolved directory first, and a blank prompt
leaves the marker content unchanged. -/
theorem c7_witness :
    (∃ tail, (save_as envW connW "/r/p.txt" none [⟨some "/d/f.txt", "a"⟩]).2.1
      = Ev.markerWrite
          (pyDirname (envW.absOf (resolveDest envW "/r/p.txt" "/d/f.txt"))) :: tail)
  ∧ (save_as envW connW "/r/p.txt" none [⟨some "", "a"⟩]).1 = none :=
  ⟨(c7_marker_rewritten_iff envW connW "/r/p.txt" none [⟨some "/d/f.txt", "a"⟩]).2.2
      ⟨some "/d/f.txt", "a"⟩ [] "/d/f.txt" rfl rfl (by decide),
   (c7_marker_rewritten_iff envW connW "/r/p.txt" none [⟨some "", "a"⟩]).2.1 (by decide)⟩

/-! ## C4, C9: the dispatcher and the top-level exception boundary -/

/-- The copy tail of `save_as` never shows the generic failure screen. -/
theorem unhandled_not_in_finish (env : SaveEnv) (conn : SSHConnectionData)
    (remotePath dest : String) :
    Ev.showError ErrMsg.unhandled ∉ finishEvents env conn remotePath dest := by
  unfold finishEvents
  split <;> split <;> simp

/-- The poll loop never shows the generic failure screen. -/
theorem unhandled_not_in_editLoopEvents (steps : List EditStep) :
    Ev.showError ErrMsg.unhandled ∉ editLoopEvents steps := by
  induction steps with
  | nil => simp [editLoopEvents]
  | cons s rest ih =>
    rcases s with ⟨adv, alive, ok⟩
    cases adv <;> cases alive <;> simp [editLoopEvents, editLoopStep, ih]

/-- The edit flow never shows the generic failure screen. -/
theorem unhandled_not_in_editFlow (downloadOk : Bool) (steps : List EditStep)
    (fin : EditFinal) :
    Ev.showError ErrMsg.unhandled ∉ editFlow downloadOk steps fin := by
  rcases fin with ⟨alive, ok⟩
  cases downloadOk with
  | false => simp [editFlow]
  | true =>
    cases alive <;> cases ok <;>
      simp [editFlow, finalUploadEvents, unhandled_not_in_editLoopEvents]

/-- A round of `save_as` shows the generic failure screen only if it was
already among the handed events. -/
theorem unhandled_not_in_saveAfterDest (env : SaveEnv) (conn : SSHConnectionData)
    (remotePath : String) (m1 : Option String) (e1 : List Ev) (dest key : String)
    (h : Ev.showError ErrMsg.unhandled ∉ e1) :
    Ev.showError ErrMsg.unhandled ∉ stepEvs (saveAfterDest env conn remotePath m1 e1 dest key) := by
  unfold saveAfterDest
  repeat' split
  all_goals simp [stepEvs, h, unhandled_not_in_finish]

/-- A round of `save_as` never shows the generic failure screen. -/
theorem unhandled_not_in_saveRound (env : SaveEnv) (conn : SSHConnectionData)
    (remotePath : String) (marker : Option String) (r : SaveRound) :
    Ev.showError ErrMsg.unhandled ∉ stepEvs (saveRound env conn remotePath marker r) := by
  rcases r with ⟨pr, key⟩
  cases pr with
  | none => simp [saveRound, stepEvs]
  | some d0 =>
    by_cases hd : d0 = "" <;>
      simp only [saveRound, hd, if_pos, if_neg, reduceIte] <;>
      exact unhandled_not_in_saveAfterDest env conn remotePath _ _ _ _ (by simp)

/-- The save flow never shows the generic failure screen. -/
theorem unhandled_not_in_save_as (env : SaveEnv) (conn : SSHConnectionData)
    (remotePath : String) (marker : Option String) (rounds : List SaveRound) :
    Ev.showError ErrMsg.unhandled ∉ (save_as env conn remotePath marker rounds).2.1 := by
  induction rounds generalizing marker with
  | nil => simp [save_as]
  | cons r rest ih =>
    have hr := unhandled_not_in_saveRound env conn remotePath marker r
    cases hsr : saveRound env conn remotePath marker r with
    | done m evs =>
      rw [hsr] at hr
      simp only [stepEvs] at hr
      rw [save_as, hsr]
      exact hr
    | again m evs =>
      rw [hsr] at hr
      simp only [stepEvs] at hr
      rw [save_as, hsr]
      simp [hr, ih m]

/-- No flow dispatched by `handle_action` shows the generic failure screen
itself; that screen belongs to the top-level boundary alone. -/
theorem unhandled_not_in_handle (inp : DispatchInputs) (action : String)
    (payload : Option String) (remotePath : String) :
    Ev.showError ErrMsg.unhandled ∉ (handle_action inp action payload remotePath).2 := by
  unfold handle_action
  cases parseConn (payload.getD "") with
  | error e => simp
  | ok conn =>
    by_cases h1 : action = "open"
    · cases h2 : inp.openCopyOk <;> simp [h1, open_flow, h2]
    · by_cases h2 : action = "edit"
      · have hb : Ev.showError ErrMsg.unhandled ∉ (editBody inp).2 := by
          unfold editBody
          split
          · simp
          · exact unhandled_not_in_editFlow _ _ _
        cases h3 : inp.editEnterOk <;>
          simp [h1, h2, edit_flow_dispatch, withControlMaster, h3, hb]
      · by_cases h3 : action = "save"
        · simp [h1, h2, h3, unhandled_not_in_save_as]
        · simp [h1, h2, h3]

/-- C4 counterexample: an exception raised inside the edit session's
`ControlMaster` scope (after a successful enter and download) is suppressed
by the scope's exit handler, so the generic failure screen is never shown —
refuting the claim for exceptions raised inside that scope. -/
theorem c4_counterexample :
    inpW.editBodyExn = true
  ∧ Ev.showError ErrMsg.unhandled ∉ (main_model inpW "edit" (some "[\"ssh\",\"h\",22]") "/f").2 := by
  refine ⟨rfl, ?_⟩
  decide

/-- C4 (amended): an exception escaping a flow is caught at the top level
and surfaced as the generic failure screen — and that screen appears
exactly when an exception escapes `handle_action` — but an exception raised
inside the edit session's `ControlMaster` scope does not escape: the
session's exit handler suppresses it, the flow completes with a `None`
result, and no generic failure is surfaced. -/
theorem c4_exception_boundary (inp : DispatchInputs) (action : String)
    (payload : Option String) (remotePath : String) :
    ((handle_action inp action payload remotePath).1 = Outcome.exn →
      Ev.showError ErrMsg.unhandled ∈ (main_model inp action payload remotePath).2)
  ∧ (Ev.showError ErrMsg.unhandled ∈ (main_model inp action payload remotePath).2 →
      (handle_action inp action payload remotePath).1 = Outcome.exn)
  ∧ (∀ conn, parseConn (payload.getD "") = Except.ok conn → action = "edit" →
      inp.editEnterOk = true → inp.editDownloadOk = true → inp.editBodyExn = true →
      (handle_action inp action payload remotePath).1 = Outcome.ret none
      ∧ Ev.showError ErrMsg.unhandled ∉ (handle_action inp action payload remotePath).2) := by
  refine ⟨?_, ?_, ?_⟩
  · intro h
    rcases hha : handle_action inp action payload remotePath with ⟨out, evs⟩
    rw [hha] at h
    cases out with
    | ret r => exact absurd h (by simp)
    | exn => simp [main_model, hha]
  · intro h
    rcases hha : handle_action inp action payload remotePath with ⟨out, evs⟩
    cases out with
    | ret r =>
      have hne := unhandled_not_in_handle inp action payload remotePath
      rw [hha] at hne
      rw [main_model, hha] at h
      exact absurd h hne
    | exn => rfl
  · intro conn hconn hact henter hdl hexn
    subst hact
    have hb : editBody inp = (Outcome.exn, []) := by
      unfold editBody
      rw [hdl, hexn]
      rfl
    constructor
    · simp [handle_action, hconn, edit_flow_dispatch, withControlMaster, henter, hb]
    · simp [handle_action, hconn, edit_flow_dispatch, withControlMaster, henter, hb]

/-- C4 witness: with a malformed payload the parse exception escapes the
flow and the generic failure is surfaced; with a well-formed payload an
exception inside the edit session's scope yields a normal `None` result. -/
theorem c4_witness :
    Ev.showError ErrMsg.unhandled ∈ (main_model inpW "edit" none "/f").2
  ∧ (handle_action inpW "edit" (some "[\"ssh\",\"h\",22]") "/f").1 = Outcome.ret none :=
  ⟨(c4_exception_boundary inpW "edit" none "/f").1 rfl,
   ((c4_exception_boundary inpW "edit" (some "[\"ssh\",\"h\",22]") "/f").2.2
      ⟨"ssh", "h", some 22⟩ rfl rfl rfl rfl rfl).1⟩

/-- C9 counterexample: dispatching the cancel action with a missing
serialized connection descriptor raises — the descriptor is parsed before
the action is examined — refuting the claim that cancel raises no error for
every input payload. -/
theorem c9_counterexample :
    (handle_action inpW "cancel" none "/f").1 = Outcome.exn := by
  rfl

/-- C9 (amended): when the serialized connection descriptor parses, the
cancel action performs no flow, emits no events and returns nothing; when
the payload is missing or malformed, `handle_action` raises while parsing
it, before the action is examined. -/
theorem c9_cancel_noop (inp : DispatchInputs) (payload : Option String)
    (remotePath : String) :
    (∀ conn, parseConn (payload.getD "") = Except.ok conn →
      handle_action inp "cancel" payload remotePath = (Outcome.ret none, []))
  ∧ (∀ e, parseConn (payload.getD "") = Except.error e →
      (handle_action inp "cancel" payload remotePath).1 = Outcome.exn) := by
  constructor
  · intro conn hconn
    simp [handle_action, hconn]
  · intro e herr
    simp [handle_action, herr]

/-- C9 witness: a well-formed payload makes cancel a silent no-op; the empty
payload (missing descriptor) raises. -/
theorem c9_witness :
    handle_action inpW "cancel" (some "[\"ssh\",\"h\",22]") "/f" = (Outcome.ret none, [])
  ∧ (handle_action inpW "cancel" none "/f").1 = Outcome.exn :=
  ⟨(c9_cancel_noop inpW (some "[\"ssh\",\"h\",22]") "/f").1 ⟨"ssh", "h", some 22⟩ rfl,
   (c9_cancel_noop inpW none "/f").2 "expecting value" rfl⟩

end RemoteFileKitten
